import Mathlib

/-!
Verification of the hardware-registry frontend (React/JSX) against its
natural-language specification.  The JavaScript functions are shallowly
embedded as Lean definitions: JS objects become structures, string
truthiness becomes `String.isEmpty` tests, `Map`s become association
lists in insertion order, and stateful handlers become explicit
state-passing functions.  JS numbers produced by `Number(...)` are
modelled as `Option ℚ` (`none` standing for `NaN`).
-/

namespace HardwareRegistry

/-- A node of the location tree as delivered by the `/locations/tree`
endpoint: an identifier and the `children` array.  Other payload fields
(name, notes, device count) do not affect any of the tree algorithms
and are represented by the identifier alone. -/
inductive JTree where
  | node (id : Nat) (children : List JTree)
deriving Repr

/-- The identifier of the tree's root node. -/
def JTree.rootId : JTree → Nat
  | .node i _ => i

mutual

/-- Number of nodes of a tree. -/
def JTree.nodeCount : JTree → Nat
  | .node _ cs => 1 + forestNodeCount cs

/-- Number of nodes of a forest. -/
def forestNodeCount : List JTree → Nat
  | [] => 0
  | c :: rest => c.nodeCount + forestNodeCount rest

end

mutual

/-- The ids of a tree's nodes in depth-first preorder (the node itself,
then its children in order, each traversed completely). -/
def JTree.preorderIds : JTree → List Nat
  | .node i cs => i :: forestPreorderIds cs

/-- The ids of a forest's nodes in depth-first preorder. -/
def forestPreorderIds : List JTree → List Nat
  | [] => []
  | c :: rest => c.preorderIds ++ forestPreorderIds rest

end

/-- Structural induction principle for `JTree` giving the hypothesis on
every child of a node. -/
theorem JTree.myInduction (P : JTree → Prop)
    (h : ∀ i cs, (∀ c ∈ cs, P c) → P (JTree.node i cs)) : ∀ t, P t
  | .node i cs => by
    apply h
    intro c hc
    have : sizeOf c < sizeOf (JTree.node i cs) := by
      have := List.sizeOf_lt_of_mem hc
      simp only [JTree.node.sizeOf_spec]
      omega
    exact JTree.myInduction P h c
termination_by t => sizeOf t

theorem attach_map_fst {α β : Type} (l : List α) (f : α → β) :
    l.attach.map (fun c => f c.1) = l.map f := by
  induction l with
  | nil => rfl
  | cons a as ih =>
    simp only [List.attach, List.attachWith, List.map_cons, List.map_pmap, List.pmap_map]
    simp [List.map_pmap, List.pmap_eq_map] at ih ⊢

theorem forestPreorderIds_eq (cs : List JTree) :
    forestPreorderIds cs = (cs.map JTree.preorderIds).flatten := by
  induction cs with
  | nil => rfl
  | cons c rest ih => rw [forestPreorderIds, List.map_cons, List.flatten_cons, ih]

theorem preorderIds_node (i : Nat) (cs : List JTree) :
    (JTree.node i cs).preorderIds = i :: (cs.map JTree.preorderIds).flatten := by
  rw [JTree.preorderIds, forestPreorderIds_eq]

/-! ### `flattenTree` (src/frontend/src/main.jsx, lines 284–297) -/

mutual

/-- Shallow embedding of the inner `walk` of `flattenTree`: push the
current node together with its `depth`, then recurse into `children`
with `depth + 1`, appending each child's output in order.  An output
entry `{...node, depth}` is modelled by the pair `(node.id, depth)`. -/
def walkFlatten : JTree → Nat → List (Nat × Nat)
  | .node i cs, d => (i, d) :: walkForest cs (d + 1)

/-- The `for (const child of current.children || [])` loop of `walk`:
the outputs of the children in order. -/
def walkForest : List JTree → Nat → List (Nat × Nat)
  | [], _ => []
  | c :: rest, d => walkFlatten c d ++ walkForest rest d

end

/-- `flattenTree` on its possibly-null argument: `flattenTree(null)`
returns `[]`, otherwise `walk(node, 0)` is run. -/
def flattenTree : Option JTree → List (Nat × Nat)
  | none => []
  | some t => walkFlatten t 0

/-- The specification's description of the expected output, written
from the spec's words rather than the source: every node of the tree
in depth-first preorder, annotated with its distance from the given
root. -/
def specPreorder : JTree → Nat → List (Nat × Nat)
  | .node i cs, d =>
      (i, d) :: ((cs.attach.map (fun c => specPreorder c.1 (d + 1))).flatten)
termination_by t _ => sizeOf t
decreasing_by
  have := List.sizeOf_lt_of_mem c.2
  simp only [JTree.node.sizeOf_spec]
  omega

theorem specPreorder_node (i : Nat) (cs : List JTree) (d : Nat) :
    specPreorder (JTree.node i cs) d =
      (i, d) :: (cs.map (fun c => specPreorder c (d + 1))).flatten := by
  rw [specPreorder, attach_map_fst cs (fun c => specPreorder c (d + 1))]

theorem walkFlatten_eq_spec (t : JTree) :
    ∀ d, walkFlatten t d = specPreorder t d := by
  induction t using JTree.myInduction with
  | _ i cs ih =>
    intro d
    rw [walkFlatten, specPreorder_node]
    have forest : ∀ (l : List JTree), (∀ c ∈ l, c ∈ cs) →
        walkForest l (d + 1) = (l.map (fun c => specPreorder c (d + 1))).flatten := by
      intro l
      induction l with
      | nil => intro _; rfl
      | cons a as iha =>
        intro hsub
        rw [walkForest, List.map_cons, List.flatten_cons,
          iha (fun c hc => hsub c (List.mem_cons_of_mem a hc)),
          ih a (hsub a (List.mem_cons_self a as)) (d + 1)]
    rw [forest cs (fun _ hc => hc)]

theorem walkFlatten_length (t : JTree) :
    ∀ d, (walkFlatten t d).length = t.nodeCount := by
  induction t using JTree.myInduction with
  | _ i cs ih =>
    intro d
    rw [walkFlatten, JTree.nodeCount]
    have forest : ∀ (l : List JTree), (∀ c ∈ l, c ∈ cs) →
        (walkForest l (d + 1)).length = forestNodeCount l := by
      intro l
      induction l with
      | nil => intro _; rfl
      | cons a as iha =>
        intro hsub
        rw [walkForest, forestNodeCount, List.length_append,
          iha (fun c hc => hsub c (List.mem_cons_of_mem a hc)),
          ih a (hsub a (List.mem_cons_self a as)) (d + 1)]
    rw [List.length_cons, forest cs (fun _ hc => hc)]
    omega

/-! ### Location-tree maps and breadcrumb (src/unnamed/part_003) -/

mutual

/-- The unique root-to-node path of ids: `pathTo t n` is the list of
ids from the tree's root down to the node with id `n` (inclusive), or
`none` if no such node exists.  Children are tried left to right. -/
def pathTo : JTree → Nat → Option (List Nat)
  | .node i cs, n =>
      if n = i then some [i]
      else
        match forestPathTo cs n with
        | some p => some (i :: p)
        | none => none

/-- The first child (left to right) containing the node gives the
path. -/
def forestPathTo : List JTree → Nat → Option (List Nat)
  | [], _ => none
  | c :: rest, n =>
      match pathTo c n with
      | some p => some p
      | none => forestPathTo rest n

end

mutual

/-- Shallow embedding of the `maps` builder (src/unnamed/part_003,
lines 708–725): a depth-first `walk` that records, for every node, the
pair (id, parent id or null) into `parentById`, setting the current
node before recursing into its children with itself as parent.  The JS
`Map` is modelled by its insertion-ordered entry list. -/
def parentPairs : JTree → Option Nat → List (Nat × Option Nat)
  | .node i cs, pid => (i, pid) :: forestParentPairs cs i

/-- The walk over a node's children, each with that node as parent. -/
def forestParentPairs : List JTree → Nat → List (Nat × Option Nat)
  | [], _ => []
  | c :: rest, i => parentPairs c (some i) ++ forestParentPairs rest i

end

theorem forestParentPairs_eq (cs : List JTree) (i : Nat) :
    forestParentPairs cs i = (cs.map (fun c => parentPairs c (some i))).flatten := by
  induction cs with
  | nil => rfl
  | cons c rest ih => rw [forestParentPairs, List.map_cons, List.flatten_cons, ih]

theorem parentPairs_node (i : Nat) (cs : List JTree) (pid : Option Nat) :
    parentPairs (JTree.node i cs) pid =
      (i, pid) :: (cs.map (fun c => parentPairs c (some i))).flatten := by
  rw [parentPairs, forestParentPairs_eq]

/-- `Map.get` on the modelled map: the value of the first entry whose
key matches (insertion never overwrites when the tree's ids are
distinct, which the correctness theorem assumes). -/
def mapGet {β : Type} : List (Nat × β) → Nat → Option β
  | [], _ => none
  | e :: rest, k => if e.1 = k then some e.2 else mapGet rest k

/-- Shallow embedding of the breadcrumb `while` loop (src/unnamed/
part_003, lines 739–756): starting from the current node's id, push
the node found in `byId` and step to `parentById.get(pointer) || null`,
stopping when the pointer is null (`while (pointer)`) or unknown in
`byId` (`if (!node) break`).  The loop closes over the two maps of the
`maps` memo; the JS loop has no iteration bound, so the embedding
takes explicit fuel, and the claim's depth bound says how much fuel
makes the loop reach its exit condition.  `byId.get(pointer)` is
modelled by the membership test on `byId`'s key list (the pushed node
is represented by its id; `byId` holds exactly the walked ids, i.e.
the tree's preorder ids). -/
def breadcrumbSteps (parentById : List (Nat × Option Nat)) (byIdKeys : List Nat) :
    Nat → Option Nat → List Nat → List Nat
  | 0, _, acc => acc
  | _ + 1, none, acc => acc
  | fuel + 1, some p, acc =>
    if p ∈ byIdKeys then
      breadcrumbSteps parentById byIdKeys fuel ((mapGet parentById p).join) (acc ++ [p])
    else acc

/-- The breadcrumb list (of node ids) for tree `t` starting from node
`startId`: build the maps, run the loop, then `reverse` the pushed
list. -/
def breadcrumb (t : JTree) (startId : Nat) (fuel : Nat) : List Nat :=
  (breadcrumbSteps (parentPairs t none) t.preorderIds fuel (some startId) []).reverse

/-! Facts about `pathTo`. -/

theorem forestPathTo_mem (cs : List JTree) (n : Nat) (p : List Nat)
    (h : forestPathTo cs n = some p) : ∃ c ∈ cs, pathTo c n = some p := by
  induction cs with
  | nil => simp [forestPathTo] at h
  | cons c rest ih =>
    rw [forestPathTo] at h
    cases hc : pathTo c n with
    | some q =>
      rw [hc] at h
      cases h
      exact ⟨c, List.mem_cons_self _ _, hc⟩
    | none =>
      rw [hc] at h
      rcases ih h with ⟨c', hc', hp⟩
      exact ⟨c', List.mem_cons_of_mem _ hc', hp⟩

theorem pathTo_head (t : JTree) (n : Nat) (p : List Nat)
    (h : pathTo t n = some p) : p.head? = some t.rootId := by
  cases t with
  | node i cs =>
    rw [pathTo] at h
    by_cases hn : n = i
    · simp only [if_pos hn] at h
      cases h
      rfl
    · simp only [if_neg hn] at h
      cases hfs : forestPathTo cs n with
      | none => rw [hfs] at h; cases h
      | some q => rw [hfs] at h; cases h; rfl

theorem pathTo_ne_nil (t : JTree) (n : Nat) (p : List Nat)
    (h : pathTo t n = some p) : p ≠ [] := by
  intro hnil
  subst hnil
  have := pathTo_head t n [] h
  simp at this

theorem pathTo_last (t : JTree) : ∀ (n : Nat) (p : List Nat),
    pathTo t n = some p → p.getLast? = some n := by
  induction t using JTree.myInduction with
  | _ i cs ih =>
    intro n p h
    rw [pathTo] at h
    by_cases hn : n = i
    · simp only [if_pos hn] at h
      cases h
      simp [hn]
    · simp only [if_neg hn] at h
      cases hfs : forestPathTo cs n with
      | none => rw [hfs] at h; cases h
      | some q =>
        rw [hfs] at h
        cases h
        rcases forestPathTo_mem cs n q hfs with ⟨c, hc, hcq⟩
        have hlast := ih c hc n q hcq
        have hqne : q ≠ [] := pathTo_ne_nil c n q hcq
        cases q with
        | nil => exact absurd rfl hqne
        | cons b bs => simpa [List.getLast?_cons_cons] using hlast

theorem mem_preorder_of_child (i : Nat) (cs : List JTree) (c : JTree) (k : Nat)
    (hc : c ∈ cs) (hk : k ∈ c.preorderIds) : k ∈ (JTree.node i cs).preorderIds := by
  rw [preorderIds_node]
  exact List.mem_cons_of_mem _
    (List.mem_flatten.mpr ⟨c.preorderIds, List.mem_map_of_mem _ hc, hk⟩)

theorem pathTo_mem (t : JTree) : ∀ (n : Nat) (p : List Nat),
    pathTo t n = some p → n ∈ t.preorderIds := by
  induction t using JTree.myInduction with
  | _ i cs ih =>
    intro n p h
    rw [pathTo] at h
    by_cases hn : n = i
    · rw [preorderIds_node]
      exact hn ▸ List.mem_cons_self _ _
    · simp only [if_neg hn] at h
      cases hfs : forestPathTo cs n with
      | none => rw [hfs] at h; cases h
      | some q =>
        rcases forestPathTo_mem cs n q hfs with ⟨c, hc, hcq⟩
        exact mem_preorder_of_child i cs c n hc (ih c hc n q hcq)

/-! Facts about `mapGet` and the keys of `parentPairs`. -/

theorem parentPairs_keys (t : JTree) : ∀ pid,
    (parentPairs t pid).map Prod.fst = t.preorderIds := by
  induction t using JTree.myInduction with
  | _ i cs ih =>
    intro pid
    rw [parentPairs_node, preorderIds_node]
    simp only [List.map_cons, List.map_flatten, List.map_map, List.cons.injEq, true_and]
    apply congrArg
    apply List.map_congr_left
    intro c hc
    simpa using ih c hc (some i)

theorem mapGet_head {β : Type} (k : Nat) (v : β) (rest : List (Nat × β)) :
    mapGet ((k, v) :: rest) k = some v := by
  simp [mapGet]

theorem mapGet_cons_ne {β : Type} (k k' : Nat) (v : β) (rest : List (Nat × β))
    (h : k' ≠ k) : mapGet ((k', v) :: rest) k = mapGet rest k := by
  simp [mapGet, h]

theorem mapGet_append_left {β : Type} (m₁ m₂ : List (Nat × β)) (k : Nat)
    (h : k ∈ m₁.map Prod.fst) : mapGet (m₁ ++ m₂) k = mapGet m₁ k := by
  induction m₁ with
  | nil => simp at h
  | cons e rest ih =>
    by_cases he : e.1 = k
    · simp [mapGet, he]
    · rw [List.cons_append, mapGet, if_neg he, mapGet, if_neg he]
      exact ih (by
        rcases List.mem_map.mp h with ⟨x, hx, hxk⟩
        rcases List.mem_cons.mp hx with hx1 | hx1
        · exact absurd (hx1 ▸ hxk) he
        · exact List.mem_map.mpr ⟨x, hx1, hxk⟩)

theorem mapGet_append_right {β : Type} (m₁ m₂ : List (Nat × β)) (k : Nat)
    (h : k ∉ m₁.map Prod.fst) : mapGet (m₁ ++ m₂) k = mapGet m₂ k := by
  induction m₁ with
  | nil => rfl
  | cons e rest ih =>
    have hne : e.1 ≠ k := by
      intro he
      exact h (by simp [he])
    rw [List.cons_append, mapGet, if_neg hne]
    exact ih (fun hm => h (List.mem_cons_of_mem _ hm))

/-- Looking up a key that belongs to child `c` in the flattened block
list of all children's `parentPairs` gives `c`'s own entry, provided
the children's id lists are disjoint. -/
theorem mapGet_children (i : Nat) : ∀ (cs : List JTree) (c : JTree) (k : Nat),
    c ∈ cs → k ∈ c.preorderIds → ((cs.map JTree.preorderIds).flatten).Nodup →
    mapGet ((cs.map (fun c' => parentPairs c' (some i))).flatten) k =
      mapGet (parentPairs c (some i)) k := by
  intro cs
  induction cs with
  | nil => intro c k hc _ _; simp at hc
  | cons a as ih =>
    intro c k hc hk hnd
    rw [List.map_cons, List.flatten_cons] at hnd ⊢
    have hkeys : (parentPairs a (some i)).map Prod.fst = a.preorderIds :=
      parentPairs_keys a (some i)
    rcases List.mem_cons.mp hc with hca | hca
    · subst hca
      exact mapGet_append_left _ _ k (by rw [hkeys]; exact hk)
    · have hdisj : List.Disjoint a.preorderIds ((as.map JTree.preorderIds).flatten) :=
        List.disjoint_of_nodup_append hnd
      have hkin : k ∈ (as.map JTree.preorderIds).flatten :=
        List.mem_flatten.mpr ⟨c.preorderIds, List.mem_map_of_mem _ hca, hk⟩
      have hknotina : k ∉ a.preorderIds := fun hka => hdisj hka hkin
      rw [mapGet_append_right _ _ k (by rw [hkeys]; exact hknotina)]
      exact ih c k hca hk hnd.of_append_right

/-- Lookup in the whole tree's parent map agrees with lookup in a
child's own parent map, for keys inside that child. -/
theorem mapGet_parentPairs_child (i : Nat) (cs : List JTree) (pid : Option Nat)
    (c : JTree) (k : Nat) (hc : c ∈ cs) (hk : k ∈ c.preorderIds)
    (hnd : (JTree.node i cs).preorderIds.Nodup) :
    mapGet (parentPairs (JTree.node i cs) pid) k =
      mapGet (parentPairs c (some i)) k := by
  rw [parentPairs_node]
  rw [preorderIds_node] at hnd
  have hkflat : k ∈ (cs.map JTree.preorderIds).flatten :=
    List.mem_flatten.mpr ⟨c.preorderIds, List.mem_map_of_mem _ hc, hk⟩
  have hine : i ∉ (cs.map JTree.preorderIds).flatten := (List.nodup_cons.mp hnd).1
  have hki : i ≠ k := fun he => hine (he ▸ hkflat)
  rw [mapGet_cons_ne k i pid _ hki]
  exact mapGet_children i cs c k hc hk (List.nodup_cons.mp hnd).2

theorem nodup_of_child (i : Nat) (cs : List JTree) (c : JTree) (hc : c ∈ cs)
    (hnd : (JTree.node i cs).preorderIds.Nodup) : c.preorderIds.Nodup := by
  rw [preorderIds_node] at hnd
  have hsub : c.preorderIds.Sublist ((cs.map JTree.preorderIds).flatten) :=
    List.sublist_flatten_of_mem (List.mem_map_of_mem _ hc)
  exact ((List.nodup_cons.mp hnd).2).sublist hsub

/-- Core walk lemma: started at a node whose root-path is `p` (in a
tree with distinct ids), after `p.length` iterations the breadcrumb
loop has pushed exactly the reversed path and its pointer is the
initial parent value the maps were built with. -/
theorem breadcrumbSteps_path (t : JTree) :
    ∀ (pid : Option Nat) (n : Nat) (p : List Nat)
      (M : List (Nat × Option Nat)) (I : List Nat),
      t.preorderIds.Nodup →
      pathTo t n = some p →
      (∀ k ∈ t.preorderIds, mapGet M k = mapGet (parentPairs t pid) k) →
      (∀ k ∈ t.preorderIds, k ∈ I) →
      ∀ (extra : Nat) (acc : List Nat),
        breadcrumbSteps M I (p.length + extra) (some n) acc =
          breadcrumbSteps M I extra pid (acc ++ p.reverse) := by
  induction t using JTree.myInduction with
  | _ i cs ih =>
    intro pid n p M I hnd hpath hM hI extra acc
    have hrootmem : i ∈ (JTree.node i cs).preorderIds := by
      rw [preorderIds_node]; exact List.mem_cons_self _ _
    have hMi : mapGet M i = some pid := by
      rw [hM i hrootmem, parentPairs_node]
      exact mapGet_head i pid _
    rw [pathTo] at hpath
    by_cases hn : n = i
    · simp only [if_pos hn] at hpath
      cases hpath
      subst hn
      show breadcrumbSteps M I (1 + extra) (some n) acc = _
      rw [Nat.add_comm 1 extra, breadcrumbSteps, if_pos (hI n hrootmem), hMi]
      rfl
    · simp only [if_neg hn] at hpath
      cases hfs : forestPathTo cs n with
      | none => rw [hfs] at hpath; cases hpath
      | some q =>
        rw [hfs] at hpath
        cases hpath
        rcases forestPathTo_mem cs n q hfs with ⟨c, hc, hcq⟩
        have hstep := ih c hc (some i) n q M I
          (nodup_of_child i cs c hc hnd) hcq
          (fun k hk => by
            rw [hM k (mem_preorder_of_child i cs c k hc hk)]
            exact mapGet_parentPairs_child i cs pid c k hc hk hnd)
          (fun k hk => hI k (mem_preorder_of_child i cs c k hc hk))
          (extra + 1) acc
        have hlen : (i :: q).length + extra = q.length + (extra + 1) := by
          simp [List.length_cons]; omega
        rw [hlen, hstep, breadcrumbSteps, if_pos (hI i hrootmem), hMi]
        show breadcrumbSteps M I extra pid (acc ++ q.reverse ++ [i]) = _
        rw [List.append_assoc, List.reverse_cons]

/-- C8: for every finite location tree (with distinct node ids, as
delivered by the backend) and every node in it — i.e. every node with
a root-path `p`, whose depth is `p.length - 1` — the breadcrumb
reconstruction terminates in at most `depth + 1` steps: any fuel of at
least `p.length = depth + 1` loop iterations makes the walk reach its
exit condition and yield exactly the ancestor path `p`, whose first
element is the tree's root node and whose last element is the current
node. -/
theorem breadcrumb_reconstruction (t : JTree) (n : Nat) (p : List Nat) (fuel : Nat)
    (hnd : t.preorderIds.Nodup) (hpath : pathTo t n = some p)
    (hfuel : p.length ≤ fuel) :
    breadcrumb t n fuel = p ∧ p.head? = some t.rootId ∧ p.getLast? = some n := by
  obtain ⟨extra, rfl⟩ : ∃ e, fuel = p.length + e := ⟨fuel - p.length, by omega⟩
  have hmain := breadcrumbSteps_path t none n p (parentPairs t none) t.preorderIds
    hnd hpath (fun _ _ => rfl) (fun _ hk => hk) extra []
  have hstop : ∀ (e : Nat) (acc : List Nat),
      breadcrumbSteps (parentPairs t none) t.preorderIds e none acc = acc := by
    intro e acc
    cases e <;> rfl
  refine ⟨?_, pathTo_head t n p hpath, pathTo_last t n p hpath⟩
  rw [breadcrumb, hmain, hstop]
  simp

/-- Witness for C8 on a concrete tree: root 1 with children 2 and 4,
node 3 below 2; the breadcrumb of node 3 with fuel 3 is [1, 2, 3]. -/
theorem breadcrumb_reconstruction_witness :
    ((JTree.node 1 [JTree.node 2 [JTree.node 3 []], JTree.node 4 []]).preorderIds.Nodup
      ∧ pathTo (JTree.node 1 [JTree.node 2 [JTree.node 3 []], JTree.node 4 []]) 3
          = some [1, 2, 3]
      ∧ ([1, 2, 3] : List Nat).length ≤ 3)
    ∧ (breadcrumb (JTree.node 1 [JTree.node 2 [JTree.node 3 []], JTree.node 4 []]) 3 3
          = [1, 2, 3]
        ∧ ([1, 2, 3] : List Nat).head?
            = some (JTree.node 1 [JTree.node 2 [JTree.node 3 []], JTree.node 4 []]).rootId
        ∧ ([1, 2, 3] : List Nat).getLast? = some 3) :=
  ⟨⟨by decide, by decide, by decide⟩,
    breadcrumb_reconstruction
      (JTree.node 1 [JTree.node 2 [JTree.node 3 []], JTree.node 4 []]) 3 [1, 2, 3] 3
      (by decide) (by decide) (by decide)⟩

/-- C10: `flattenTree` is total on tree inputs: `flattenTree(null)`
returns the empty list, and for every finite tree it returns exactly
the tree's nodes in depth-first preorder annotated with their distance
from the given root (`specPreorder`), so the first element is the root
itself with depth 0 and the result length equals the number of
nodes. -/
theorem flattenTree_total_preorder (t : JTree) :
    flattenTree none = [] ∧
    flattenTree (some t) = specPreorder t 0 ∧
    (flattenTree (some t)).length = t.nodeCount ∧
    (flattenTree (some t)).head? = some (t.rootId, 0) := by
  refine ⟨rfl, walkFlatten_eq_spec t 0, walkFlatten_length t 0, ?_⟩
  cases t with
  | node i cs => rfl

/-! ### Wi-Fi creation handlers (src/frontend/src/main.jsx lines
868–903 and src/unnamed/part_003 lines 969–1016) -/

/-- JSON body of a `POST /wifi` request.  `Option` fields model JSON
null. -/
structure WifiRequestBody where
  root_id : String
  space_id : String
  ssid : String
  password : String
  security : String
  vlan_id : Option String
  notes : Option String
deriving Repr, DecidableEq

/-- Outcome of a form submit handler: `noAction` when the handler
returned before touching any state, `validationError` when it called
`setError` with the given message and returned without issuing a
request, `requestSent` when it issued the create request with the
given body. -/
inductive WifiCreateResult where
  | noAction
  | validationError (msg : String)
  | requestSent (body : WifiRequestBody)
deriving Repr, DecidableEq

/-- The Wi-Fi form state feeding the create handlers. -/
structure WifiForm where
  spaceId : String
  ssid : String
  password : String
  security : String
  vlanId : String
  notes : String
deriving Repr, DecidableEq

/-- Shallow embedding of `onCreateWifi` (src/frontend/src/main.jsx,
lines 868–903): returns unless `isAdmin && selectedRootId`; errors
with "Wi-Fi wymaga przestrzeni i VLAN" unless both `spaceId` and
`vlanId` are truthy; otherwise POSTs `/wifi` with `vlan_id` set to the
(nonempty) form value and `notes` defaulted to null. -/
def onCreateWifi (isAdmin : Bool) (selectedRootId : String) (f : WifiForm) :
    WifiCreateResult :=
  if !isAdmin || selectedRootId.isEmpty then .noAction
  else if f.spaceId.isEmpty || f.vlanId.isEmpty then
    .validationError "Wi-Fi wymaga przestrzeni i VLAN"
  else .requestSent {
    root_id := selectedRootId
    space_id := f.spaceId
    ssid := f.ssid
    password := f.password
    security := f.security
    vlan_id := some f.vlanId
    notes := if f.notes.isEmpty then none else some f.notes }

/-- Shallow embedding of the `onCreateWifi` variant of
src/unnamed/part_003 (lines 969–1016): returns unless
`selectedRootId`; errors with "Wybierz przestrzeń dla sieci Wi-Fi"
unless `spaceId` is truthy; otherwise POSTs `/wifi` with
`vlan_id: newWifi.vlanId || null` — the VLAN is optional there. -/
def onCreateWifiLegacy (selectedRootId : String) (f : WifiForm) : WifiCreateResult :=
  if selectedRootId.isEmpty then .noAction
  else if f.spaceId.isEmpty then
    .validationError "Wybierz przestrzeń dla sieci Wi-Fi"
  else .requestSent {
    root_id := selectedRootId
    space_id := f.spaceId
    ssid := f.ssid
    password := f.password
    security := f.security
    vlan_id := if f.vlanId.isEmpty then none else some f.vlanId
    notes := if f.notes.isEmpty then none else some f.notes }

/-- Counterexample to C1 as stated: in the current main.jsx an
administrator with a selected root and a valid space but no VLAN gets
the validation error "Wi-Fi wymaga przestrzeni i VLAN" and no create
request is issued, so a Wi-Fi network cannot be created without
supplying a VLAN. -/
theorem wifi_vlan_required_counterexample :
    onCreateWifi true "root-1"
        { spaceId := "space-1", ssid := "net", password := "pw"
          security := "WPA2", vlanId := "", notes := "" }
      = .validationError "Wi-Fi wymaga przestrzeni i VLAN" := by rfl

/-- C1 (amended): in the current main.jsx the VLAN reference is
required — `onCreateWifi` issues a create request iff the caller is
admin, a root is selected and both `spaceId` and `vlanId` are
nonempty; only the older part_003 variant keeps the VLAN optional,
issuing the request without a VLAN and sending `vlan_id` null. -/
theorem wifi_create_request_iff (isAdmin : Bool) (root : String) (f : WifiForm)
    (hroot : ¬root.isEmpty) (hspace : ¬f.spaceId.isEmpty) :
    ((∃ b, onCreateWifi isAdmin root f = .requestSent b) ↔
      (isAdmin = true ∧ ¬f.vlanId.isEmpty))
    ∧ (f.vlanId.isEmpty →
        ∃ b, onCreateWifiLegacy root f = .requestSent b ∧ b.vlan_id = none) := by
  constructor
  · constructor
    · intro ⟨b, hb⟩
      by_cases hadmin : isAdmin
      · by_cases hvlan : f.vlanId.isEmpty
        · rw [onCreateWifi] at hb
          simp [hadmin, hroot, hspace, hvlan] at hb
        · exact ⟨hadmin, hvlan⟩
      · rw [onCreateWifi] at hb
        simp [hadmin] at hb
    · intro ⟨hadmin, hvlan⟩
      rw [onCreateWifi, if_neg (by simp [hadmin, hroot]),
        if_neg (by simp [hspace, hvlan])]
      exact ⟨_, rfl⟩
  · intro hvlan
    rw [onCreateWifiLegacy, if_neg hroot, if_neg hspace]
    exact ⟨_, rfl, by simp [hvlan]⟩

/-- Witness for C1's amended theorem at concrete inputs. -/
theorem wifi_create_request_iff_witness :
    (¬("root-1" : String).isEmpty ∧ ¬("space-1" : String).isEmpty)
    ∧ (((∃ b, onCreateWifi true "root-1"
          { spaceId := "space-1", ssid := "net", password := "pw"
            security := "WPA2", vlanId := "", notes := "" } = .requestSent b) ↔
        (true = true ∧ ¬("" : String).isEmpty))
      ∧ (("" : String).isEmpty →
          ∃ b, onCreateWifiLegacy "root-1"
              { spaceId := "space-1", ssid := "net", password := "pw"
                security := "WPA2", vlanId := "", notes := "" } = .requestSent b
            ∧ b.vlan_id = none)) :=
  ⟨⟨by decide, by decide⟩,
    wifi_create_request_iff true "root-1"
      { spaceId := "space-1", ssid := "net", password := "pw"
        security := "WPA2", vlanId := "", notes := "" }
      (by decide) (by decide)⟩

/-! ### VLAN range checks (src/frontend/src/main.jsx lines 822–866
`onCreateVlan` and lines 1001–1034 `onSaveVlan`) -/

/-- `Number.isInteger` on a JS number modelled as `Option ℚ` (`none`
is `NaN`, which is not an integer). -/
def numberIsInteger : Option ℚ → Bool
  | none => false
  | some q => q.den == 1

/-- Outcome of the VLAN create/edit handlers: `noAction` when the
admin/root guard returned, `rangeError` when
"VLAN ID musi być liczbą 1-4094" was set and no request issued,
`requestSent` when the POST/PATCH carrying the parsed `vlan_id` was
issued. -/
inductive VlanFormResult where
  | noAction
  | rangeError
  | requestSent (vlan_id : ℚ)
deriving Repr, DecidableEq

/-- Shallow embedding of `onCreateVlan` (src/frontend/src/main.jsx,
lines 822–866): returns unless `isAdmin && selectedRootId`; computes
`vlanId = Number(vlanForm.vlanId)` (the already-parsed number is the
argument here) and fails the range check unless
`Number.isInteger(vlanId) && 1 <= vlanId && vlanId <= 4094`; otherwise
POSTs `/vlans` with the numeric id. -/
def onCreateVlan (isAdmin : Bool) (selectedRootId : String) (vlanIdNum : Option ℚ) :
    VlanFormResult :=
  if !isAdmin || selectedRootId.isEmpty then .noAction
  else if !numberIsInteger vlanIdNum
      || vlanIdNum.getD 0 < 1 || vlanIdNum.getD 0 > 4094 then .rangeError
  else .requestSent (vlanIdNum.getD 0)

/-- Shallow embedding of `onSaveVlan` (src/frontend/src/main.jsx,
lines 1001–1034): the same guard and the same range check on
`Number(vlanEditForm.vlanId)`, then PATCH `/vlans/:id`. -/
def onSaveVlan (isAdmin : Bool) (selectedRootId : String) (vlanIdNum : Option ℚ) :
    VlanFormResult :=
  if !isAdmin || selectedRootId.isEmpty then .noAction
  else if !numberIsInteger vlanIdNum
      || vlanIdNum.getD 0 < 1 || vlanIdNum.getD 0 > 4094 then .rangeError
  else .requestSent (vlanIdNum.getD 0)

/-- C3: creating or editing a VLAN fails with the range error (and no
request is issued) whenever the supplied numeric id is not an integer
in [1, 4094]; for every integer in that interval the range check
passes and the request is issued. -/
theorem vlan_range_check_iff (isAdmin : Bool) (root : String) (v : Option ℚ)
    (hadmin : isAdmin = true) (hroot : ¬root.isEmpty) :
    ((¬∃ n : ℤ, v = some (n : ℚ) ∧ 1 ≤ n ∧ n ≤ 4094) →
      onCreateVlan isAdmin root v = .rangeError
      ∧ onSaveVlan isAdmin root v = .rangeError)
    ∧ (∀ n : ℤ, 1 ≤ n → n ≤ 4094 →
      onCreateVlan isAdmin root (some (n : ℚ)) = .requestSent (n : ℚ)
      ∧ onSaveVlan isAdmin root (some (n : ℚ)) = .requestSent (n : ℚ)) := by
  subst hadmin
  constructor
  · intro hno
    have hbad : (!numberIsInteger v
        || v.getD 0 < 1 || v.getD 0 > 4094) = true := by
      cases v with
      | none => rfl
      | some q =>
        by_cases hint : q.den = 1
        · obtain ⟨n, rfl⟩ : ∃ n : ℤ, (n : ℚ) = q :=
            ⟨q.num, (Rat.den_eq_one_iff q).mp hint⟩
          have hnand : ¬(1 ≤ n ∧ n ≤ 4094) := fun hn => hno ⟨n, rfl, hn.1, hn.2⟩
          have hq : (n : ℚ) < 1 ∨ (n : ℚ) > 4094 := by
            rcases not_and_or.mp hnand with hn | hn
            · exact Or.inl (by exact_mod_cast lt_of_not_le hn)
            · exact Or.inr (by exact_mod_cast lt_of_not_le hn)
          simp only [Option.getD_some, Bool.or_eq_true, decide_eq_true_eq,
            Bool.or_assoc]
          exact Or.inr hq
        · simp [numberIsInteger, hint]
    have hcreate : onCreateVlan true root v = .rangeError := by
      rw [onCreateVlan, if_neg (by simp [hroot]), if_pos hbad]
    have hsave : onSaveVlan true root v = .rangeError := by
      rw [onSaveVlan, if_neg (by simp [hroot]), if_pos hbad]
    exact ⟨hcreate, hsave⟩
  · intro n h1 h4094
    have hint : numberIsInteger (some (n : ℚ)) = true := by
      simp [numberIsInteger, Rat.den_intCast]
    have hok : ¬((!numberIsInteger (some (n : ℚ))
        || (some (n : ℚ)).getD 0 < 1 || (some (n : ℚ)).getD 0 > 4094) = true) := by
      simp only [hint, Bool.not_true, Bool.false_or, Option.getD_some,
        Bool.or_eq_true, decide_eq_true_eq, not_or, not_lt]
      constructor
      · exact_mod_cast h1
      · exact_mod_cast h4094
    have hcreate : onCreateVlan true root (some (n : ℚ)) = .requestSent (n : ℚ) := by
      rw [onCreateVlan, if_neg (by simp [hroot]), if_neg hok]
      rfl
    have hsave : onSaveVlan true root (some (n : ℚ)) = .requestSent (n : ℚ) := by
      rw [onSaveVlan, if_neg (by simp [hroot]), if_neg hok]
      rfl
    exact ⟨hcreate, hsave⟩

/-- Witness for C3 at concrete inputs: the integer 100 passes, and
4095 (not in range) fails. -/
theorem vlan_range_check_iff_witness :
    (true = true ∧ ¬("root-1" : String).isEmpty)
    ∧ (((¬∃ n : ℤ, (some ((4095 : ℤ) : ℚ) : Option ℚ) = some (n : ℚ)
            ∧ 1 ≤ n ∧ n ≤ 4094) →
        onCreateVlan true "root-1" (some ((4095 : ℤ) : ℚ)) = .rangeError
        ∧ onSaveVlan true "root-1" (some ((4095 : ℤ) : ℚ)) = .rangeError)
      ∧ (∀ n : ℤ, 1 ≤ n → n ≤ 4094 →
        onCreateVlan true "root-1" (some (n : ℚ)) = .requestSent (n : ℚ)
        ∧ onSaveVlan true "root-1" (some (n : ℚ)) = .requestSent (n : ℚ))) :=
  ⟨⟨rfl, by decide⟩,
    vlan_range_check_iff true "root-1" (some ((4095 : ℤ) : ℚ)) rfl (by decide)⟩

/-! ### Connection wizard (src/unnamed/part_003, lines 1142–1193 and
1647–1683) -/

/-- The option values of the connection wizard's technology `select`
(src/unnamed/part_003, lines 1647–1664), in document order. -/
def connectionTechnologyOptions : List String :=
  ["ETHERNET", "FIBER", "WIFI", "SERIAL", "OTHER"]

/-- The connection technologies the repository's own user documentation
(src/docs/USAGE.md §7, "Obsługiwane technologie") and the spec's
legality table list as creatable through the wizard. -/
def documentedTechnologies : List String :=
  ["ETHERNET", "FIBER", "WIFI", "ZIGBEE", "MATTER_OVER_THREAD",
   "BLUETOOTH", "BLE", "SERIAL", "OTHER"]

/-- C2 evidence (code bug): the wizard's technology select offers a
strict subset of the documented technologies — ZIGBEE,
MATTER_OVER_THREAD, BLUETOOTH and BLE cannot be selected, so no
connection of those four technologies can be created through the
connection-creation interface, contrary to USAGE.md §7 and the spec's
nine-technology table. -/
theorem connection_wizard_technology_options :
    connectionTechnologyOptions.all
        (fun x => documentedTechnologies.contains x) = true
    ∧ ("ZIGBEE" ∈ documentedTechnologies
        ∧ "ZIGBEE" ∉ connectionTechnologyOptions)
    ∧ ("MATTER_OVER_THREAD" ∈ documentedTechnologies
        ∧ "MATTER_OVER_THREAD" ∉ connectionTechnologyOptions)
    ∧ ("BLUETOOTH" ∈ documentedTechnologies
        ∧ "BLUETOOTH" ∉ connectionTechnologyOptions)
    ∧ ("BLE" ∈ documentedTechnologies
        ∧ "BLE" ∉ connectionTechnologyOptions) := by
  refine ⟨rfl, ?_, ?_, ?_, ?_⟩ <;> exact ⟨by decide, by decide⟩

/-- The connection wizard's form state. -/
structure ConnectionForm where
  fromInterfaceId : String
  toInterfaceId : String
  technology : String
  vlanId : String
  notes : String
deriving Repr, DecidableEq

/-- JSON body of a `POST /connections` request. -/
structure ConnectionRequestBody where
  root_id : String
  from_interface_id : String
  to_interface_id : String
  technology : String
  vlan_id : Option String
  notes : Option String
deriving Repr, DecidableEq

/-- Outcome of the connection create handler. -/
inductive ConnectionCreateResult where
  | noAction
  | validationError (msg : String)
  | requestSent (body : ConnectionRequestBody)
deriving Repr, DecidableEq

/-- Shallow embedding of `onCreateConnection` (src/unnamed/part_003,
lines 1142–1193): returns unless `selectedRootId`; errors with
"Wybierz oba interfejsy połączenia" unless both interface ids are
truthy; otherwise POSTs `/connections` with
`vlan_id: technology === "ETHERNET" ? vlanId || null : null`. -/
def onCreateConnection (selectedRootId : String) (f : ConnectionForm) :
    ConnectionCreateResult :=
  if selectedRootId.isEmpty then .noAction
  else if f.fromInterfaceId.isEmpty || f.toInterfaceId.isEmpty then
    .validationError "Wybierz oba interfejsy połączenia"
  else .requestSent {
    root_id := selectedRootId
    from_interface_id := f.fromInterfaceId
    to_interface_id := f.toInterfaceId
    technology := f.technology
    vlan_id := if f.technology == "ETHERNET" then
        (if f.vlanId.isEmpty then none else some f.vlanId)
      else none
    notes := if f.notes.isEmpty then none else some f.notes }

/-- Modelled from the spec: the VLAN step of the backend
`createConnection` legality check is not part of the repository
sources under src/ (only its frontend caller is).  Per §4.5, step (2):
if the technology requires a VLAN — only ETHERNET does — a missing
`vlan_id` fails `MissingVlan`, a present one is resolved and attached;
for the other technologies the (frontend-nulled) value is taken as the
connection's VLAN reference unchanged. -/
def specVlanStep (technology : String) (vlan_id : Option String) :
    Except String (Option String) :=
  if technology = "ETHERNET" then
    match vlan_id with
    | none => .error "MissingVlan"
    | some v => .ok (some v)
  else .ok vlan_id

/-- C4: a VLAN is attached to a new Connection iff its technology is
ETHERNET.  The request built by `onCreateConnection` carries a
non-null `vlan_id` exactly for ETHERNET with a VLAN chosen; for every
non-ETHERNET technology any supplied VLAN is ignored (the body carries
null and the spec-modelled backend VLAN step accepts it, never
rejecting for carrying one); for ETHERNET without a VLAN the backend
step fails `MissingVlan`, and with one it succeeds. -/
theorem connection_vlan_ethernet_only (root : String) (f : ConnectionForm)
    (hroot : ¬root.isEmpty) (hfrom : ¬f.fromInterfaceId.isEmpty)
    (hto : ¬f.toInterfaceId.isEmpty) :
    ∃ b, onCreateConnection root f = .requestSent b
      ∧ (b.vlan_id ≠ none ↔ (f.technology = "ETHERNET" ∧ ¬f.vlanId.isEmpty))
      ∧ (f.technology ≠ "ETHERNET" →
          b.vlan_id = none ∧ specVlanStep b.technology b.vlan_id = .ok none)
      ∧ (f.technology = "ETHERNET" → f.vlanId.isEmpty →
          specVlanStep b.technology b.vlan_id = .error "MissingVlan")
      ∧ (f.technology = "ETHERNET" → ¬f.vlanId.isEmpty →
          specVlanStep b.technology b.vlan_id = .ok (some f.vlanId)) := by
  rw [onCreateConnection, if_neg hroot, if_neg (by simp [hfrom, hto])]
  refine ⟨_, rfl, ?_, ?_, ?_, ?_⟩
  · by_cases htech : f.technology = "ETHERNET"
    · by_cases hvlan : f.vlanId.isEmpty
      · simp [htech, hvlan]
      · simp [htech, hvlan]
    · simp [htech]
  · intro htech
    constructor
    · simp [htech]
    · simp [specVlanStep, htech]
  · intro htech hvlan
    simp [specVlanStep, htech, hvlan]
  · intro htech hvlan
    simp [specVlanStep, htech, hvlan]

/-- Witness for C4 at a concrete input: a WIFI connection with a VLAN
supplied in the form is created with a null VLAN reference. -/
theorem connection_vlan_ethernet_only_witness :
    (¬("root-1" : String).isEmpty ∧ ¬("if-1" : String).isEmpty
      ∧ ¬("if-2" : String).isEmpty)
    ∧ ∃ b, onCreateConnection "root-1"
          { fromInterfaceId := "if-1", toInterfaceId := "if-2"
            technology := "WIFI", vlanId := "vlan-9", notes := "" }
        = .requestSent b
      ∧ (b.vlan_id ≠ none ↔ (("WIFI" : String) = "ETHERNET"
          ∧ ¬("vlan-9" : String).isEmpty))
      ∧ (("WIFI" : String) ≠ "ETHERNET" →
          b.vlan_id = none ∧ specVlanStep b.technology b.vlan_id = .ok none)
      ∧ (("WIFI" : String) = "ETHERNET" → ("vlan-9" : String).isEmpty →
          specVlanStep b.technology b.vlan_id = .error "MissingVlan")
      ∧ (("WIFI" : String) = "ETHERNET" → ¬("vlan-9" : String).isEmpty →
          specVlanStep b.technology b.vlan_id = .ok (some "vlan-9")) :=
  ⟨⟨by decide, by decide, by decide⟩,
    connection_vlan_ethernet_only "root-1"
      { fromInterfaceId := "if-1", toInterfaceId := "if-2"
        technology := "WIFI", vlanId := "vlan-9", notes := "" }
      (by decide) (by decide) (by decide)⟩

/-! ### Admin guards on the mutating handlers (src/frontend/src/main.jsx) -/

/-- Description of an HTTP request a handler may issue. -/
structure RequestDesc where
  method : String
  path : String
deriving Repr, DecidableEq

/-- The mutating handlers of main.jsx covered by the access-control
guard: create/edit/delete of a Root, Space, VLAN, Wi-Fi network or
Device. -/
inductive AdminOp where
  | createRoot | saveRoot | deleteRoot
  | createSpace | saveSpace
  | createVlanOp | saveVlanOp | deleteVlanOp
  | createWifiOp | saveWifiOp | deleteWifiOp
  | createDevice | saveDevice | deleteDevice
deriving Repr, DecidableEq

/-- Shallow embedding of the guard placement shared by every mutating
handler of main.jsx.  Each handler's very first statement is its
guard, transcribed here per handler:
`onCreateRoot` (line 667), `onSaveRoot` (702), `onDeleteRoot` (728)
open with `if (!isAdmin) return;`; `onCreateSpace` (755), `onSaveSpace`
(792), `onCreateVlan` (822), `onSaveVlan` (1001), `onDeleteVlan`
(1036), `onCreateWifi` (868), `onSaveWifi` (1075), `onDeleteWifi`
(1113), `onCreateDevice` (936), `onSaveDevice` (1159), `onDeleteDevice`
(1201) open with `if (!isAdmin || !selectedRootId) return;`.  When the
guard passes, the handler continues with its body (validation, the
awaited request, state updates from the response), abstracted here as
`rest` over an arbitrary component-state type; when it fails, the
handler returns at once, before any statement runs — no request, no
state change. -/
def mutatingHandler {σ : Type} (op : AdminOp) (isAdmin : Bool)
    (selectedRootId : String) (rest : σ → Option RequestDesc × σ) (s : σ) :
    Option RequestDesc × σ :=
  match op with
  | .createRoot | .saveRoot | .deleteRoot =>
      if !isAdmin then (none, s) else rest s
  | .createSpace | .saveSpace
  | .createVlanOp | .saveVlanOp | .deleteVlanOp
  | .createWifiOp | .saveWifiOp | .deleteWifiOp
  | .createDevice | .saveDevice | .deleteDevice =>
      if !isAdmin || selectedRootId.isEmpty then (none, s) else rest s

/-- C5: for every mutating operation (create, edit or delete of a
Root, Space, VLAN, Wi-Fi network or Device), if the caller's role is
not ADMIN the handler performs no request and leaves the state
unchanged, whatever the handler's body would have done — the denial
has no partial side effects. -/
theorem admin_guard_no_side_effects {σ : Type} (op : AdminOp) (isAdmin : Bool)
    (selectedRootId : String) (rest : σ → Option RequestDesc × σ) (s : σ)
    (h : isAdmin = false) :
    mutatingHandler op isAdmin selectedRootId rest s = (none, s) := by
  subst h
  cases op <;> rfl

/-- Witness for C5: a concrete non-admin `onDeleteRoot` call issues no
request and leaves the state (here a counter) unchanged. -/
theorem admin_guard_no_side_effects_witness :
    (false = false)
    ∧ mutatingHandler AdminOp.deleteRoot false "root-1"
        (fun (s : Nat) => (some ⟨"DELETE", "/roots/root-1"⟩, s + 1)) 0 = (none, 0) :=
  ⟨rfl, admin_guard_no_side_effects AdminOp.deleteRoot false "root-1"
    (fun (s : Nat) => (some ⟨"DELETE", "/roots/root-1"⟩, s + 1)) 0 rfl⟩

/-! ### Revealed Wi-Fi passwords (src/frontend/src/main.jsx lines 441–447,
641–661, 905–934, 1865–1875) -/

/-- Property read on a JS object modelled as an association list
(latest binding first). -/
def objGet (m : List (String × String)) (k : String) : Option String :=
  match m with
  | [] => none
  | e :: rest => if e.1 = k then some e.2 else objGet rest k

/-- The mask literal of the Wi-Fi list's password cell. -/
def wifiPasswordMask : String := "••••••••••••"

/-- Shallow embedding of the password cell (src/frontend/src/main.jsx,
line 1871): `revealedWifiPasswords[wifi.id] || "••••••••••••"` — the
mask renders when the map holds no entry for the network (or an empty,
falsy one). -/
def wifiPasswordCell (revealed : List (String × String)) (wifiId : String) : String :=
  match objGet revealed wifiId with
  | some pw => if pw.isEmpty then wifiPasswordMask else pw
  | none => wifiPasswordMask

/-- The reveal timer delay of `onRevealWifi`: `30_000` ms
(src/frontend/src/main.jsx, line 929). -/
def revealDelayMs : Nat := 30000

/-- State of the reveal feature: the `revealedWifiPasswords` object
and `revealTimersRef` (network id ↦ milliseconds remaining on its
pending auto-mask timer). -/
structure RevealState where
  revealed : List (String × String)
  timers : List (String × Nat)
deriving Repr, DecidableEq

/-- Both maps start empty. -/
def initialRevealState : RevealState := ⟨[], []⟩

/-- Events driving the reveal state:
`revealSuccess` — `onRevealWifi` got an ok response (lines 905–934):
clear any pending timer for the id, store `payload.password` under the
id, arm a fresh `revealDelayMs` timer;
`revealFailure` — the error path of `onRevealWifi`: only `setError`,
the maps unchanged;
`elapse ms` — passage of time: timers run down, and a timer reaching
zero fires its callback, which deletes the entry and the timer
(lines 922–928);
`rootChanged newRootId` — the `[selectedRootId]` effect (lines
628–645) ran with the new selection: it opens with
`if (!selectedRootId) { return; }` (lines 629–631), so only a truthy
new selection reaches the `clearRevealedWifi()` call at line 643
(lines 441–447: all timers cleared, map reset);
`documentHidden` — the `visibilitychange` listener (lines 653–661)
calls `clearRevealedWifi` when `document.hidden`. -/
inductive RevealEvent where
  | revealSuccess (wifiId : String) (password : String)
  | revealFailure
  | elapse (ms : Nat)
  | rootChanged (newRootId : String)
  | documentHidden
deriving Repr, DecidableEq

/-- One step of the reveal feature's state. -/
def stepReveal : RevealEvent → RevealState → RevealState
  | .revealSuccess wifiId pw, s =>
      { revealed := (wifiId, pw) :: s.revealed.filter (fun e => e.1 ≠ wifiId)
        timers := (wifiId, revealDelayMs) :: s.timers.filter (fun e => e.1 ≠ wifiId) }
  | .revealFailure, s => s
  | .elapse ms, s =>
      let fired := (s.timers.filter (fun e => e.2 ≤ ms)).map Prod.fst
      { revealed := s.revealed.filter (fun e => e.1 ∉ fired)
        timers := (s.timers.filter (fun e => ms < e.2)).map (fun e => (e.1, e.2 - ms)) }
  | .rootChanged newRootId, s =>
      if newRootId.isEmpty then s else initialRevealState
  | .documentHidden, _ => initialRevealState

/-- Run a trace of events from a given state. -/
def runRevealFrom (s : RevealState) (trace : List RevealEvent) : RevealState :=
  trace.foldl (fun st e => stepReveal e st) s

/-- Run a trace of events from the initial (empty) state. -/
def runReveal (trace : List RevealEvent) : RevealState :=
  runRevealFrom initialRevealState trace

/-- Every entry of the revealed map after a trace either was already
present or was put there by a `revealSuccess` event of the trace. -/
theorem runRevealFrom_mem (trace : List RevealEvent) :
    ∀ (s : RevealState) (wifiId pw : String),
      (wifiId, pw) ∈ (runRevealFrom s trace).revealed →
      (wifiId, pw) ∈ s.revealed ∨ RevealEvent.revealSuccess wifiId pw ∈ trace := by
  induction trace with
  | nil => intro s wifiId pw h; exact Or.inl h
  | cons e rest ih =>
    intro s wifiId pw h
    rcases ih (stepReveal e s) wifiId pw h with hs | hev
    · cases e with
      | revealSuccess id' pw' =>
        rcases List.mem_cons.mp hs with heq | hmem
        · cases heq
          exact Or.inr (List.mem_cons_self _ _)
        · exact Or.inl (List.mem_of_mem_filter hmem)
      | revealFailure => exact Or.inl hs
      | elapse ms => exact Or.inl (List.mem_of_mem_filter hs)
      | rootChanged newRootId =>
        rw [stepReveal] at hs
        by_cases hr : newRootId.isEmpty
        · rw [if_pos hr] at hs
          exact Or.inl hs
        · rw [if_neg hr] at hs
          simp [initialRevealState] at hs
      | documentHidden => simp [stepReveal, initialRevealState] at hs
    · exact Or.inr (List.mem_cons_of_mem _ hev)

/-- C6: a Wi-Fi network's password is never displayed in plaintext
from list data — whenever the revealed-passwords map holds no entry
for a network, the password cell renders the mask, and every entry the
map ever holds was put there by a successful reveal operation of the
trace (starting from the empty map). -/
theorem wifi_password_mask_invariant (trace : List RevealEvent) (wifiId : String) :
    (objGet (runReveal trace).revealed wifiId = none →
      wifiPasswordCell (runReveal trace).revealed wifiId = wifiPasswordMask)
    ∧ (∀ pw, (wifiId, pw) ∈ (runReveal trace).revealed →
        RevealEvent.revealSuccess wifiId pw ∈ trace) := by
  constructor
  · intro h
    rw [wifiPasswordCell, h]
  · intro pw hmem
    rcases runRevealFrom_mem trace initialRevealState wifiId pw hmem with hs | hev
    · simp [initialRevealState] at hs
    · exact hev

/-- Witness for C6: after revealing network w1, network w2's cell
still renders the mask. -/
theorem wifi_password_mask_invariant_witness :
    wifiPasswordCell (runReveal [RevealEvent.revealSuccess "w1" "pw"]).revealed "w2"
      = wifiPasswordMask :=
  (wifi_password_mask_invariant [RevealEvent.revealSuccess "w1" "pw"] "w2").1 (by decide)

theorem objGet_cons_ne (e : String × String) (m : List (String × String))
    (k : String) (h : e.1 ≠ k) : objGet (e :: m) k = objGet m k := by
  rw [objGet, if_neg h]

theorem objGet_filter_out (m : List (String × String)) (F : List String)
    (k : String) (hk : k ∈ F) :
    objGet (m.filter (fun e => e.1 ∉ F)) k = none := by
  induction m with
  | nil => rfl
  | cons e rest ih =>
    by_cases he : e.1 ∈ F
    · rw [List.filter_cons_of_neg (by simp [he])]
      exact ih
    · rw [List.filter_cons_of_pos (by simp [he]),
        objGet_cons_ne e _ k (fun hek => he (hek ▸ hk))]
      exact ih

theorem objGet_filter_keep (m : List (String × String)) (F : List String)
    (k : String) (hk : k ∉ F) :
    objGet (m.filter (fun e => e.1 ∉ F)) k = objGet m k := by
  induction m with
  | nil => rfl
  | cons e rest ih =>
    by_cases he : e.1 ∈ F
    · have hne : e.1 ≠ k := fun hek => hk (hek ▸ he)
      rw [List.filter_cons_of_neg (by simp [he]), objGet_cons_ne e rest k hne]
      exact ih
    · rw [List.filter_cons_of_pos (by simp [he])]
      by_cases hek : e.1 = k
      · rw [objGet, if_pos hek, objGet, if_pos hek]
      · rw [objGet_cons_ne e _ k hek, objGet_cons_ne e rest k hek]
        exact ih

/-- Counterexample to C7 as stated: the `[selectedRootId]` effect
opens with `if (!selectedRootId) { return; }`, so when the selection
changes to the empty value (after deleting the last root, `loadRoots`
sets `selectedRootId` to `list[0]?.id || ""`) the program never
reaches `clearRevealedWifi` — after a successful reveal followed by
that root change, the plaintext is still in the revealed map, so
"every revealed password is cleared immediately when the selected root
changes" fails. -/
theorem reveal_root_change_counterexample :
    objGet (stepReveal (.rootChanged "")
        (stepReveal (.revealSuccess "w1" "secret") initialRevealState)).revealed "w1"
      = some "secret" := by rfl

/-- C7 (amended): display-side expiry of revealed passwords is
enforced by the caller: after a successful reveal the plaintext entry
survives any elapse shorter than the 30000 ms timer and is gone once
the timer's delay has elapsed; every revealed password is cleared
immediately when the selected root changes to a nonempty selection or
the document becomes hidden, while a change to the empty selection
returns before clearing and leaves the reveal state unchanged (the
entry then persists until its timer fires). -/
theorem reveal_expiry_behavior (s : RevealState) (wifiId pw : String)
    (msShort msLong : Nat) (newRoot : String)
    (hshort : msShort < revealDelayMs)
    (hlong : revealDelayMs ≤ msLong)
    (hroot : ¬newRoot.isEmpty) :
    objGet (stepReveal (.elapse msLong)
        (stepReveal (.revealSuccess wifiId pw) s)).revealed wifiId = none
    ∧ objGet (stepReveal (.elapse msShort)
        (stepReveal (.revealSuccess wifiId pw) s)).revealed wifiId = some pw
    ∧ (stepReveal (.rootChanged newRoot) s).revealed = []
    ∧ (stepReveal .documentHidden s).revealed = []
    ∧ (∀ s', stepReveal (.rootChanged "") s' = s')
    ∧ revealDelayMs = 30000 := by
  refine ⟨?_, ?_, by rw [stepReveal, if_neg hroot]; rfl, rfl, fun s' => rfl, rfl⟩
  · show objGet
      (((wifiId, pw) :: s.revealed.filter (fun e => e.1 ≠ wifiId)).filter
        (fun e => e.1 ∉
          ((((wifiId, revealDelayMs) :: s.timers.filter (fun e => e.1 ≠ wifiId)).filter
            (fun e => e.2 ≤ msLong)).map Prod.fst))) wifiId = none
    apply objGet_filter_out
    rw [List.filter_cons_of_pos (by simpa using hlong)]
    simp
  · show objGet
      (((wifiId, pw) :: s.revealed.filter (fun e => e.1 ≠ wifiId)).filter
        (fun e => e.1 ∉
          ((((wifiId, revealDelayMs) :: s.timers.filter (fun e => e.1 ≠ wifiId)).filter
            (fun e => e.2 ≤ msShort)).map Prod.fst))) wifiId = some pw
    have hfired : ((wifiId, revealDelayMs) :: s.timers.filter
          (fun e => e.1 ≠ wifiId)).filter (fun e => e.2 ≤ msShort)
        = (s.timers.filter (fun e => e.1 ≠ wifiId)).filter
            (fun e => e.2 ≤ msShort) := by
      apply List.filter_cons_of_neg
      intro hc
      simp only [decide_eq_true_eq] at hc
      omega
    rw [hfired]
    have hout : wifiId ∉ ((s.timers.filter (fun e => e.1 ≠ wifiId)).filter
        (fun e => e.2 ≤ msShort)).map Prod.fst := by
      intro hmem
      rcases List.mem_map.mp hmem with ⟨e, he, hek⟩
      have he1 : e ∈ s.timers.filter (fun e => e.1 ≠ wifiId) :=
        List.mem_of_mem_filter he
      have hne := List.of_mem_filter he1
      simp only [decide_eq_true_eq] at hne
      exact hne hek
    rw [objGet_filter_keep _ _ _ hout, objGet, if_pos rfl]

/-- Witness for C7's amended theorem at concrete inputs: elapsing
29999 ms keeps the plaintext, elapsing 30000 ms removes it, changing
the selection to "root-2" clears the map, and changing it to the
empty selection leaves the state untouched. -/
theorem reveal_expiry_behavior_witness :
    (29999 < revealDelayMs ∧ revealDelayMs ≤ 30000
      ∧ ¬("root-2" : String).isEmpty)
    ∧ (objGet (stepReveal (.elapse 30000)
          (stepReveal (.revealSuccess "w1" "secret") initialRevealState)).revealed "w1"
        = none
      ∧ objGet (stepReveal (.elapse 29999)
          (stepReveal (.revealSuccess "w1" "secret") initialRevealState)).revealed "w1"
        = some "secret"
      ∧ (stepReveal (.rootChanged "root-2") initialRevealState).revealed = []
      ∧ (stepReveal .documentHidden initialRevealState).revealed = []
      ∧ (∀ s', stepReveal (.rootChanged "") s' = s')
      ∧ revealDelayMs = 30000) :=
  ⟨⟨by decide, by decide, by decide⟩,
    reveal_expiry_behavior initialRevealState "w1" "secret" 29999 30000 "root-2"
      (by decide) (by decide) (by decide)⟩

/-! ### Service worker fetch handlers (src/frontend/public/sw.js) -/

/-- A fetch event as the service worker sees it, together with the
environment facts its run depends on: whether `fetch(event.request)`
would succeed and whether `caches.match(event.request)` would find an
entry. -/
structure SWFetchEvent where
  method : String
  url : String
  origin : String
  networkOk : Bool
  cacheHit : Bool
  isNavigate : Bool
deriving Repr, DecidableEq

/-- What one run of a fetch handler did: whether it intercepted the
request (`respondWith`), whether it executed
`cache.put(event.request, …)`, and whether the response it returned
was read from the Cache Storage. -/
structure SWEffect where
  intercepted : Bool
  wroteCache : Bool
  answeredFromCache : Bool
deriving Repr, DecidableEq

/-- Shallow embedding of the v1 fetch handler (sw.js, first version,
lines 19–40): `if (event.request.method !== "GET") return;` — no
interception; otherwise cache-first: a cache hit is returned as is,
else the network response is returned and put into the cache when
`event.request.url.startsWith(self.location.origin)`; on network
failure the cached app shell (`caches.match("/index.html")`) is
served. -/
def swFetchV1 (e : SWFetchEvent) : SWEffect :=
  if e.method ≠ "GET" then ⟨false, false, false⟩
  else if e.cacheHit then ⟨true, false, true⟩
  else if e.networkOk then ⟨true, e.url.startsWith e.origin, false⟩
  else ⟨true, false, true⟩

/-- Shallow embedding of the v2 fetch handler (sw.js, second version,
lines 59–84): `if (event.request.method !== "GET") return;` — no
interception; otherwise network-first: the network response is
returned and put into the cache when same-origin; on network failure
the cached entry is served if present, then the cached app shell for
navigations, otherwise the error propagates. -/
def swFetchV2 (e : SWFetchEvent) : SWEffect :=
  if e.method ≠ "GET" then ⟨false, false, false⟩
  else if e.networkOk then ⟨true, e.url.startsWith e.origin, false⟩
  else if e.cacheHit then ⟨true, false, true⟩
  else if e.isNavigate then ⟨true, false, true⟩
  else ⟨true, false, false⟩

/-- C9: both service-worker versions intercept exactly the GET
requests — a mutating request (such as the reveal POST) is never
answered from nor written to the cache — and a run writes to the cache
only when the request is a GET whose URL starts with the service
worker's origin (and, per version, the network branch that clones the
response was taken). -/
theorem service_worker_cache_discipline (e : SWFetchEvent) :
    (e.method ≠ "GET" →
      swFetchV1 e = ⟨false, false, false⟩ ∧ swFetchV2 e = ⟨false, false, false⟩)
    ∧ (swFetchV1 e).intercepted = (e.method == "GET")
    ∧ (swFetchV2 e).intercepted = (e.method == "GET")
    ∧ (swFetchV1 e).wroteCache
        = (e.method == "GET" && !e.cacheHit && e.networkOk
            && e.url.startsWith e.origin)
    ∧ (swFetchV2 e).wroteCache
        = (e.method == "GET" && e.networkOk && e.url.startsWith e.origin) := by
  by_cases hm : e.method = "GET" <;>
    cases hc : e.cacheHit <;> cases hn : e.networkOk <;> cases hnav : e.isNavigate <;>
      simp [swFetchV1, swFetchV2, hm, hc, hn, hnav, beq_iff_eq, beq_eq_false_iff_ne]

/-- Witness for C9 at the reveal POST: the request is not intercepted
and nothing touches the cache, in either service-worker version. -/
theorem service_worker_cache_discipline_witness :
    (("POST" : String) ≠ "GET")
    ∧ swFetchV1 ⟨"POST", "http://localhost:8380/api/wifi/w1/reveal",
        "http://localhost:8380", true, true, false⟩ = ⟨false, false, false⟩
    ∧ swFetchV2 ⟨"POST", "http://localhost:8380/api/wifi/w1/reveal",
        "http://localhost:8380", true, true, false⟩ = ⟨false, false, false⟩ :=
  ⟨by decide,
    (service_worker_cache_discipline ⟨"POST", "http://localhost:8380/api/wifi/w1/reveal",
      "http://localhost:8380", true, true, false⟩).1 (by decide)⟩

end HardwareRegistry
